import Mathlib

/-!
Shallow embedding of `daily_slack_avatar.py` (DailySlackAvatar): the credential
store (`save_slack_tokens`, `get_slack_tokens`, the failed-auth cleanup inside
`upload_to_slack`), the compositor (`layer_images`), and the random asset
selector (`get_random_image`), together with theorems settling the claims
about them.

Python dicts are modelled as insertion-ordered association lists: assigning to
an existing key replaces the value in place, assigning a new key appends.
PIL images are modelled symbolically as a tree of the operations the code
applies, with the pixel dimensions computable from the tree; the imaging
primitives (decode, Lanczos resampling, per-pixel alpha-over) are external
collaborators per the spec, so what the code determines — which image is
resized, to what dimensions, with which filter, and in which compositing
order — is exactly what the tree records.
-/

namespace DailySlackAvatar

/-- Python dict assignment `d[k] = v`: replace in place when the key exists,
append otherwise (insertion-ordered dict semantics). -/
def dictInsert (d : List (String × String)) (k v : String) : List (String × String) :=
  match d with
  | [] => [(k, v)]
  | (k0, v0) :: rest => if k0 = k then (k, v) :: rest else (k0, v0) :: dictInsert rest k v

/-- Python dict lookup `d[k]` / `k in d`. -/
def dictLookup (d : List (String × String)) (k : String) : Option String :=
  match d with
  | [] => none
  | (k0, v0) :: rest => if k0 = k then some v0 else dictLookup rest k

/-- Python `del d[k]` (keys are unique in a dict, so removing every pair with
this key removes exactly the one entry). -/
def dictRemove (d : List (String × String)) (k : String) : List (String × String) :=
  match d with
  | [] => []
  | (k0, v0) :: rest => if k0 = k then dictRemove rest k else (k0, v0) :: dictRemove rest k

/-- The on-disk `.slack_config.json` document: `profiles` maps alias to the
token stored under the profile object, `default` is the optional default
alias (`none` models the key being absent). A missing or unparsable file is
the empty store. -/
structure Config where
  profiles : List (String × String)
  default : Option String
deriving DecidableEq, Repr

/-- The empty store (missing config file, or a file whose JSON fails to parse). -/
def emptyConfig : Config := ⟨[], none⟩

/-- The `tokens` argument of `save_slack_tokens`: either a single token string
with the separate `alias` keyword argument, or a dict of alias-to-token pairs. -/
inductive TokensArg
  | singleTok (token : String) (aliasArg : Option String)
  | multiTok (pairs : List (String × String))
deriving DecidableEq, Repr

/-- `save_slack_tokens` (lines 26-62): merge the given tokens into the loaded
config and write it back.  On the single-token path the default is set exactly
when the resulting profiles dict has one entry; on the dict path the default
is set when the config has no `default` key and the resulting profiles dict is
nonempty, to its first-iterated alias.  A falsy alias (`None` or `""`) on the
single-token path matches neither `isinstance` branch, so nothing is merged. -/
def save_slack_tokens (config : Config) (tokens : TokensArg) : Config :=
  match tokens with
  | .singleTok tok a? =>
    match a? with
    | none => config
    | some a =>
      if a = "" then config
      else
        let ps := dictInsert config.profiles a tok
        if ps.length = 1 then ⟨ps, some a⟩ else ⟨ps, config.default⟩
  | .multiTok pairs =>
    let ps := pairs.foldl (fun acc p => dictInsert acc p.1 p.2) config.profiles
    if config.default = none ∧ 0 < ps.length then
      ⟨ps, some (ps.headD ("", "")).1⟩
    else
      ⟨ps, config.default⟩

/-- `get_slack_tokens` (lines 64-99): start with the environment token under
the key `"default"` when `SLACK_USER_TOKEN` is set, then merge in profiles
from the config file — the requested aliases when the `profile_aliases` list
is truthy (non-`None` and nonempty), else every stored profile.  Each merge is
a plain dict assignment, so a stored profile whose alias is already a key
overwrites the earlier value. -/
def get_slack_tokens (env_token : Option String) (config_profiles : List (String × String))
    (profile_aliases : Option (List String)) : List (String × String) :=
  let tokens : List (String × String) :=
    match env_token with
    | some t => dictInsert [] "default" t
    | none => []
  match profile_aliases with
  | some aliases =>
    if aliases = [] then
      config_profiles.foldl (fun acc p => dictInsert acc p.1 p.2) tokens
    else
      aliases.foldl
        (fun acc a =>
          match dictLookup config_profiles a with
          | some t => dictInsert acc a t
          | none => acc)
        tokens
  | none => config_profiles.foldl (fun acc p => dictInsert acc p.1 p.2) tokens

/-- The error codes `upload_to_slack` treats as a dead credential (line 260). -/
def dead_token_errors : List String :=
  ["invalid_auth", "not_authed", "token_revoked", "missing_scope"]

/-- The failed-auth cleanup (lines 270-278): re-read the config file, and when
the alias is a key of its profiles dict, delete that single entry and rewrite
the whole file.  The `default` key is never touched. -/
def remove_invalid_token (config : Config) (a : String) : Config :=
  if (dictLookup config.profiles a).isSome then
    ⟨dictRemove config.profiles a, config.default⟩
  else
    config

/-- Outcome of one `users_setPhoto` call for one alias, as the code
distinguishes them: acknowledged ok; a response with `ok` false and no
exception; a `SlackApiError` carrying an error code (with `cleanup_ok` false
when the best-effort config cleanup itself raises); any other exception. -/
inductive Outcome
  | ok
  | respErr
  | apiErr (code : String) (cleanup_ok : Bool)
  | exn
deriving DecidableEq, Repr

/-- Whether an attempt outcome is recorded as a success (line 249: only an
acknowledged-ok response is). -/
def attempt_success : Outcome → Bool
  | .ok => true
  | _ => false

/-- One iteration of the upload loop (lines 238-285) for one alias: returns
the on-disk store after the attempt and the `(alias, success)` record
appended to `results`.  Only a `SlackApiError` whose code is in
`dead_token_errors` touches the store, and a failure of that cleanup is
caught (modelled as the store being left as it was). -/
def upload_attempt (config : Config) (a : String) (o : Outcome) : Config × (String × Bool) :=
  match o with
  | .ok => (config, (a, true))
  | .respErr => (config, (a, false))
  | .apiErr code cleanup_ok =>
    if code ∈ dead_token_errors then
      (if cleanup_ok then remove_invalid_token config a else config, (a, false))
    else
      (config, (a, false))
  | .exn => (config, (a, false))

/-- The upload loop over every resolved `(alias, token)` pair, threading the
on-disk store through the per-alias cleanups and collecting one record per
pair. `outcome` gives each alias its attempt outcome. -/
def upload_loop (tokens : List (String × String)) (outcome : String → Outcome)
    (config : Config) : Config × List (String × Bool) :=
  match tokens with
  | [] => (config, [])
  | (a, _) :: rest =>
    let step := upload_attempt config a (outcome a)
    let tail := upload_loop rest outcome step.1
    (tail.1, step.2 :: tail.2)

/-- `upload_to_slack` (lines 212-296): resolve tokens via `get_slack_tokens`;
when that is empty fall back to the interactive prompt (an external
collaborator — `prompt_tokens` is what it returns, `none` when the user
aborts); when still empty return the empty result list; otherwise run the
upload loop. -/
def upload_to_slack (env_token : Option String) (config : Config)
    (profile_aliases : Option (List String)) (prompt_tokens : Option (List (String × String)))
    (outcome : String → Outcome) : Config × List (String × Bool) :=
  let slack_tokens := get_slack_tokens env_token config.profiles profile_aliases
  let slack_tokens := if slack_tokens = [] then prompt_tokens.getD [] else slack_tokens
  if slack_tokens = [] then (config, [])
  else upload_loop slack_tokens outcome config

/-- RGBA color, four 8-bit channels. -/
structure RGBA where
  r : Nat
  g : Nat
  b : Nat
  a : Nat
deriving DecidableEq, Repr

/-- PIL resampling filter; the code only ever passes `Image.LANCZOS`. -/
inductive ResampleFilter
  | lanczos
deriving DecidableEq, Repr

/-- A PIL image, modelled symbolically as the tree of operations that built it:
`loaded w h` is `Image.open` of a decodable file with those pixel dimensions,
`convertedRGBA` is `.convert("RGBA")`, `resized` is `.resize((w, h), filter)`,
`composited bg fg` is `Image.alpha_composite(bg, fg)` (the per-pixel
alpha-over of `fg` on top of `bg`), `blank` is `Image.new('RGBA', (w, h), c)`,
and `pasted` is `canvas.paste(src, (x, y))`. -/
inductive Img
  | loaded (width height : Nat)
  | convertedRGBA (src : Img)
  | resized (src : Img) (width height : Nat) (filter : ResampleFilter)
  | composited (background foreground : Img)
  | blank (width height : Nat) (color : RGBA)
  | pasted (canvas src : Img) (x y : Nat)
deriving DecidableEq, Repr

/-- Pixel width of an image. -/
def Img.width : Img → Nat
  | .loaded w _ => w
  | .convertedRGBA s => s.width
  | .resized _ w _ _ => w
  | .composited bg _ => bg.width
  | .blank w _ _ => w
  | .pasted canvas _ _ _ => canvas.width

/-- Pixel height of an image. -/
def Img.height : Img → Nat
  | .loaded _ h => h
  | .convertedRGBA s => s.height
  | .resized _ _ h _ => h
  | .composited bg _ => bg.height
  | .blank _ h _ => h
  | .pasted canvas _ _ _ => canvas.height

/-- PIL `.size`, the `(width, height)` pair. -/
def Img.size (i : Img) : Nat × Nat := (i.width, i.height)

/-- `Image.alpha_composite(im1, im2)`: the per-pixel over-composite of `im2`
on top of `im1`; PIL raises `ValueError` when the two images differ in size,
modelled as `none`. -/
def alpha_composite (im1 im2 : Img) : Option Img :=
  if im1.size = im2.size then some (.composited im1 im2) else none

/-- Slack's recommended square size used by the code (line 199). -/
def slack_size : Nat := 512

/-- `layer_images` (lines 172-210): convert both inputs to RGBA, resize the
foreground to the background's dimensions with `Image.LANCZOS` when the sizes
differ, alpha-composite foreground over background; with `slack_profile` set,
pad the composite onto a transparent `max(w, h)`-square canvas centered at
integer-floor-division offsets and resize the canvas to 512x512 with
`Image.LANCZOS`.  (The final `composite.save(output_path)` write is I/O,
outside the embedding.) -/
def layer_images (foreground_img background_img : Img) (slack_profile : Bool) : Option Img :=
  let foreground := Img.convertedRGBA foreground_img
  let background := Img.convertedRGBA background_img
  let foreground :=
    if foreground.size ≠ background.size then
      Img.resized foreground background.width background.height .lanczos
    else foreground
  match alpha_composite background foreground with
  | none => none
  | some composite =>
    if slack_profile then
      let width := composite.width
      let height := composite.height
      let size := max width height
      let square0 := Img.blank size size ⟨0, 0, 0, 0⟩
      let paste_x := (size - width) / 2
      let paste_y := (size - height) / 2
      let square1 := Img.pasted square0 composite paste_x paste_y
      some (Img.resized square1 slack_size slack_size .lanczos)
    else
      some composite

/-- The composite `layer_images` builds before the optional square-profile
step: background under the (resized-if-needed) foreground. -/
def composite_of (foreground_img background_img : Img) : Img :=
  let foreground := Img.convertedRGBA foreground_img
  let background := Img.convertedRGBA background_img
  let foreground :=
    if foreground.size ≠ background.size then
      Img.resized foreground background.width background.height .lanczos
    else foreground
  Img.composited background foreground

/-- The two `FileNotFoundError`s `get_random_image` raises: `createdEmpty`
carries the message "Created directory <dir>, but it is empty. Please add PNG
images to this folder." (raised right after `os.makedirs`), `noPngFound`
carries "No PNG files found in <dir>. Please add some PNG images to this
folder." -/
inductive PickErr
  | createdEmpty (dir : String)
  | noPngFound (dir : String)
deriving DecidableEq, Repr

/-- Python `f.lower().endswith(".png")` (line 164): lowercase every character
of the name and test for the four-character suffix `.png`. -/
def lower_endswith_png (f : String) : Bool :=
  List.isSuffixOf ['.', 'p', 'n', 'g'] (f.data.map Char.toLower)

/-- `get_random_image` (lines 154-170) over the directory state: `none` means
the directory does not exist, `some entries` its immediate entry names.
Returns the directory state after the call and the result.  `random.choice`
draws an index uniformly below the match count, modelled by the caller-chosen
`pick` reduced mod the count. -/
def get_random_image (folder : String) (fs : Option (List String)) (pick : Nat) :
    Option (List String) × Except PickErr String :=
  match fs with
  | none => (some [], .error (.createdEmpty folder))
  | some entries =>
    let image_files := entries.filter lower_endswith_png
    if image_files = [] then
      (some entries, .error (.noPngFound folder))
    else
      (some entries, .ok (folder ++ "/" ++ image_files.getD (pick % image_files.length) ""))

/-! Helper lemmas about the dict model and the upload loop. -/

theorem dictLookup_dictInsert_ne (d : List (String × String)) (k0 v k : String) (h : k0 ≠ k) :
    dictLookup (dictInsert d k0 v) k = dictLookup d k := by
  induction d with
  | nil => simp [dictInsert, dictLookup, h]
  | cons p rest ih =>
    obtain ⟨k1, v1⟩ := p
    by_cases hk : k1 = k0
    · subst hk
      simp [dictInsert, dictLookup, h]
    · by_cases hk1 : k1 = k
      · subst hk1
        have hne : ¬(k1 = k0) := hk
        simp [dictInsert, dictLookup, hne]
      · simp [dictInsert, dictLookup, hk, hk1, ih]

theorem dictInsert_ne_nil (d : List (String × String)) (k v : String) :
    dictInsert d k v ≠ [] := by
  cases d with
  | nil => simp [dictInsert]
  | cons p rest =>
    simp only [dictInsert]
    split <;> simp

theorem foldl_dictInsert_ne_nil (pairs : List (String × String)) :
    ∀ acc : List (String × String), acc ≠ [] →
      pairs.foldl (fun acc p => dictInsert acc p.1 p.2) acc ≠ [] := by
  induction pairs with
  | nil => intro acc h; simpa using h
  | cons p rest ih =>
    intro acc _
    rw [List.foldl_cons]
    exact ih _ (dictInsert_ne_nil acc p.1 p.2)

theorem dictLookup_foldl_dictInsert_not_mem (pairs : List (String × String)) (k : String) :
    ∀ acc : List (String × String), k ∉ pairs.map Prod.fst →
      dictLookup (pairs.foldl (fun acc p => dictInsert acc p.1 p.2) acc) k = dictLookup acc k := by
  induction pairs with
  | nil => intro acc _; rfl
  | cons p rest ih =>
    intro acc h
    simp only [List.map_cons, List.mem_cons] at h
    push_neg at h
    rw [List.foldl_cons, ih _ h.2, dictLookup_dictInsert_ne _ _ _ _ (fun he => h.1 he.symm)]

theorem dictLookup_dictInsert_self (d : List (String × String)) (k v : String) :
    dictLookup (dictInsert d k v) k = some v := by
  induction d with
  | nil => simp [dictInsert, dictLookup]
  | cons p rest ih =>
    obtain ⟨k0, v0⟩ := p
    by_cases h : k0 = k
    · simp [dictInsert, dictLookup, h]
    · simp [dictInsert, dictLookup, h, ih]

theorem dictLookup_foldl_dictInsert_of_lookup (pairs : List (String × String)) (k v : String) :
    (pairs.map Prod.fst).Nodup → dictLookup pairs k = some v →
    ∀ acc : List (String × String),
      dictLookup (pairs.foldl (fun acc p => dictInsert acc p.1 p.2) acc) k = some v := by
  induction pairs with
  | nil =>
    intro _ h
    simp [dictLookup] at h
  | cons p rest ih =>
    intro hnd hl acc
    obtain ⟨k0, v0⟩ := p
    simp only [List.map_cons, List.nodup_cons] at hnd
    rw [List.foldl_cons]
    by_cases h : k0 = k
    · subst h
      have hv : v0 = v := by
        simpa [dictLookup] using hl
      rw [dictLookup_foldl_dictInsert_not_mem rest _ _ hnd.1, dictLookup_dictInsert_self]
      simp [hv]
    · simp only [dictLookup, if_neg h] at hl
      exact ih hnd.2 hl _

theorem dictLookup_dictRemove_self (d : List (String × String)) (k : String) :
    dictLookup (dictRemove d k) k = none := by
  induction d with
  | nil => rfl
  | cons p rest ih =>
    obtain ⟨k0, v0⟩ := p
    by_cases h : k0 = k
    · simp [dictRemove, h, ih]
    · simp [dictRemove, dictLookup, h, ih]

theorem dictRemove_eq_of_lookup_none (d : List (String × String)) (k : String)
    (h : dictLookup d k = none) : dictRemove d k = d := by
  induction d with
  | nil => rfl
  | cons p rest ih =>
    obtain ⟨k0, v0⟩ := p
    by_cases hk : k0 = k
    · simp [dictLookup, hk] at h
    · simp only [dictLookup, if_neg hk] at h
      simp [dictRemove, hk, ih h]

theorem mem_keys_of_dictLookup_some (d : List (String × String)) (k v : String)
    (h : dictLookup d k = some v) : k ∈ d.map Prod.fst := by
  induction d with
  | nil => simp [dictLookup] at h
  | cons p rest ih =>
    obtain ⟨k0, v0⟩ := p
    by_cases hk : k0 = k
    · simp [hk]
    · simp only [dictLookup, if_neg hk] at h
      simp [ih h]

theorem not_mem_keys_of_dictLookup_none (d : List (String × String)) (k : String)
    (h : dictLookup d k = none) : k ∉ d.map Prod.fst := by
  induction d with
  | nil => simp
  | cons p rest ih =>
    obtain ⟨k0, v0⟩ := p
    by_cases hk : k0 = k
    · simp [dictLookup, hk] at h
    · simp only [dictLookup, if_neg hk] at h
      simp only [List.map_cons, List.mem_cons, not_or]
      exact ⟨fun he => hk he.symm, ih h⟩

theorem dictLookup_foldl_optInsert_not_mem (profiles : List (String × String))
    (aliases : List String) (k : String) :
    ∀ acc : List (String × String), k ∉ aliases →
      dictLookup
        (aliases.foldl
          (fun acc a =>
            match dictLookup profiles a with
            | some t => dictInsert acc a t
            | none => acc)
          acc) k = dictLookup acc k := by
  induction aliases with
  | nil => intro acc _; rfl
  | cons a rest ih =>
    intro acc h
    simp only [List.mem_cons] at h
    push_neg at h
    rw [List.foldl_cons, ih _ h.2]
    cases hl : dictLookup profiles a with
    | none => rfl
    | some t => exact dictLookup_dictInsert_ne _ _ _ _ (fun he => h.1 he.symm)

theorem dictLookup_foldl_optInsert_mem (profiles : List (String × String)) (f : String)
    (hf : dictLookup profiles "default" = some f) (aliases : List String) :
    ∀ acc : List (String × String), "default" ∈ aliases →
      dictLookup
        (aliases.foldl
          (fun acc a =>
            match dictLookup profiles a with
            | some t => dictInsert acc a t
            | none => acc)
          acc) "default" = some f := by
  induction aliases with
  | nil =>
    intro acc h
    simp at h
  | cons a rest ih =>
    intro acc hmem
    rw [List.foldl_cons]
    by_cases hr : "default" ∈ rest
    · exact ih _ hr
    · have ha : a = "default" := by
        rcases List.mem_cons.mp hmem with h | h
        · exact h.symm
        · exact absurd h hr
      subst ha
      rw [dictLookup_foldl_optInsert_not_mem profiles rest _ _ hr]
      simp only [hf]
      exact dictLookup_dictInsert_self _ _ _

theorem upload_loop_snd (outcome : String → Outcome) (tokens : List (String × String)) :
    ∀ config : Config,
      (upload_loop tokens outcome config).2 =
        tokens.map (fun p => (p.1, attempt_success (outcome p.1))) := by
  induction tokens with
  | nil => intro config; rfl
  | cons p rest ih =>
    intro config
    obtain ⟨a, t⟩ := p
    simp only [upload_loop, ih, List.map_cons]
    cases h : outcome a with
    | ok => simp [upload_attempt, attempt_success]
    | respErr => simp [upload_attempt, attempt_success]
    | exn => simp [upload_attempt, attempt_success]
    | apiErr code cleanup_ok =>
      simp only [upload_attempt, attempt_success]
      split <;> simp

theorem getD_mem_of_lt (l : List String) (n : Nat) (h : n < l.length) :
    l.getD n "" ∈ l := by
  induction l generalizing n with
  | nil => simp at h
  | cons x rest ih =>
    cases n with
    | zero => simp [List.getD]
    | succ m =>
      simp only [List.length_cons, Nat.succ_lt_succ_iff] at h
      simp only [List.getD_cons_succ]
      exact List.mem_cons_of_mem _ (ih m h)

/-! Claim theorems. -/

/-- C1: when an upload attempt fails with a `SlackApiError` whose code is in
the dead-credential set (`invalid_auth`, `not_authed`, `token_revoked`,
`missing_scope`) and the cleanup succeeds, the resulting on-disk store is the
re-read store with the alias's single profile entry removed and the rest
rewritten unchanged, and the attempt is recorded as `(alias, false)`; for any
other error code the store is left unchanged; and a failure of the cleanup
itself is non-fatal: the attempt is still recorded as `(alias, false)` and the
loop still produces a record for every remaining alias. -/
theorem upload_dead_token_cleanup (config : Config) (a code : String) :
    (code ∈ dead_token_errors →
      (upload_attempt config a (.apiErr code true)).1 =
        ⟨dictRemove config.profiles a, config.default⟩
      ∧ dictLookup (upload_attempt config a (.apiErr code true)).1.profiles a = none
      ∧ (upload_attempt config a (.apiErr code true)).2 = (a, false))
    ∧ (code ∉ dead_token_errors → ∀ c : Bool,
      upload_attempt config a (.apiErr code c) = (config, (a, false)))
    ∧ (∀ c : Bool, (upload_attempt config a (.apiErr code c)).2 = (a, false))
    ∧ (∀ (tok : String) (rest : List (String × String)) (outcome : String → Outcome),
      outcome a = Outcome.apiErr code false →
      ((upload_loop ((a, tok) :: rest) outcome config).2).map Prod.fst =
        a :: rest.map Prod.fst) := by
  refine ⟨fun hdead => ?_, fun hnot c => ?_, fun c => ?_, fun tok rest outcome ho => ?_⟩
  · have hstore : (upload_attempt config a (.apiErr code true)).1 =
        ⟨dictRemove config.profiles a, config.default⟩ := by
      simp only [upload_attempt, if_pos hdead, if_pos trivial]
      unfold remove_invalid_token
      cases hl : dictLookup config.profiles a with
      | none => simp [hl, dictRemove_eq_of_lookup_none _ _ hl]
      | some v => simp [hl]
    refine ⟨hstore, ?_, by simp [upload_attempt, if_pos hdead]⟩
    rw [hstore]
    exact dictLookup_dictRemove_self _ _
  · simp [upload_attempt, if_neg hnot]
  · simp only [upload_attempt]
    split <;> rfl
  · have h2 : (upload_attempt config a (Outcome.apiErr code false)).2.1 = a := by
      simp only [upload_attempt]
      split <;> rfl
    simp only [upload_loop, upload_loop_snd, List.map_cons, List.map_map, ho, h2]
    rfl

/-- C1 witness: a concrete `invalid_auth` failure for alias `work` removes
exactly that profile from the store and records the failure. -/
theorem upload_dead_token_cleanup_witness :
    (upload_attempt ⟨[("work", "wt"), ("home", "ht")], some "work"⟩ "work"
        (Outcome.apiErr "invalid_auth" true)).1 =
      ⟨dictRemove [("work", "wt"), ("home", "ht")] "work", some "work"⟩ :=
  ((upload_dead_token_cleanup ⟨[("work", "wt"), ("home", "ht")], some "work"⟩ "work"
    "invalid_auth").1 (by decide)).1

/-- C2: `upload_to_slack` is total (the embedding is a function) and its
result list is exactly one `(alias, success)` record per resolved
`(alias, token)` pair — where the resolved pairs are `get_slack_tokens`'s
result, or the prompt collaborator's tokens when that is empty — with the
record a success exactly for an acknowledged-ok response; in particular any
per-attempt exception outcome yields `(alias, false)` without dropping the
remaining aliases, and an empty resolution yields the empty list. -/
theorem upload_to_slack_one_result_per_alias (env_token : Option String) (config : Config)
    (profile_aliases : Option (List String)) (prompt_tokens : Option (List (String × String)))
    (outcome : String → Outcome) :
    (upload_to_slack env_token config profile_aliases prompt_tokens outcome).2 =
      (if get_slack_tokens env_token config.profiles profile_aliases = [] then
          prompt_tokens.getD []
        else get_slack_tokens env_token config.profiles profile_aliases).map
        (fun p => (p.1, attempt_success (outcome p.1))) := by
  unfold upload_to_slack
  by_cases h1 : get_slack_tokens env_token config.profiles profile_aliases = []
  · simp only [h1, if_pos trivial, if_true]
    by_cases h2 : prompt_tokens.getD [] = []
    · simp [h2]
    · simp [h2, upload_loop_snd]
  · simp [h1, upload_loop_snd]

/-- C3 counterexample: with the environment token set and a stored profile
named `default`, the resolved `default` entry is the file's token, not the
environment's — the claim that the environment wins is false. -/
theorem get_slack_tokens_env_wins_counterexample :
    dictLookup (get_slack_tokens (some "env-token") [("default", "file-token")] none)
      "default" ≠ some "env-token" := by
  decide

/-- C3 amended: the on-disk store wins for the `default` alias — whenever the
environment token is set, the file's profiles (a dict, so with distinct
aliases) hold a profile named `default`, and that profile is loaded (no
requested-alias filter, a falsy empty filter, or any filter containing
`default`), the resulting mapping's `default` entry is the file's token,
because the file merge assigns over the environment-supplied key. -/
theorem get_slack_tokens_file_default_wins (e f : String) (profiles : List (String × String))
    (hnodup : (profiles.map Prod.fst).Nodup)
    (hf : dictLookup profiles "default" = some f) :
    dictLookup (get_slack_tokens (some e) profiles none) "default" = some f
    ∧ dictLookup (get_slack_tokens (some e) profiles (some [])) "default" = some f
    ∧ (∀ aliases : List String, "default" ∈ aliases →
        dictLookup (get_slack_tokens (some e) profiles (some aliases)) "default" = some f) := by
  refine ⟨?_, ?_, fun aliases hmem => ?_⟩
  · simp only [get_slack_tokens]
    exact dictLookup_foldl_dictInsert_of_lookup profiles _ _ hnodup hf _
  · simp only [get_slack_tokens]
    exact dictLookup_foldl_dictInsert_of_lookup profiles _ _ hnodup hf _
  · have hne : aliases ≠ [] := by
      intro h
      rw [h] at hmem
      simp at hmem
    simp only [get_slack_tokens]
    rw [if_neg hne]
    exact dictLookup_foldl_optInsert_mem profiles f hf aliases _ hmem

/-- C3 amended witness: a store holding `work` first and then a `default`
profile, alongside an environment token — the file's token wins with no
filter and with a filter listing `work` and `default`. -/
theorem get_slack_tokens_file_default_wins_witness :
    dictLookup
      (get_slack_tokens (some "env-token") [("work", "wt"), ("default", "file-token")] none)
      "default" = some "file-token"
    ∧ dictLookup
        (get_slack_tokens (some "env-token") [("work", "wt"), ("default", "file-token")]
          (some ["work", "default"]))
        "default" = some "file-token" := by
  have h := get_slack_tokens_file_default_wins "env-token" "file-token"
    [("work", "wt"), ("default", "file-token")] (by decide) (by decide)
  exact ⟨h.1, h.2.2 ["work", "default"] (by decide)⟩

theorem alpha_composite_layer (fg bg : Img) :
    alpha_composite (Img.convertedRGBA bg)
      (if (Img.convertedRGBA fg).size ≠ (Img.convertedRGBA bg).size then
        Img.resized (Img.convertedRGBA fg) (Img.convertedRGBA bg).width
          (Img.convertedRGBA bg).height ResampleFilter.lanczos
      else Img.convertedRGBA fg) = some (composite_of fg bg) := by
  simp only [composite_of]
  by_cases h : (Img.convertedRGBA fg).size = (Img.convertedRGBA bg).size
  · rw [if_neg (not_not_intro h)]
    simp [alpha_composite, h]
  · rw [if_pos h]
    simp [alpha_composite, Img.size, Img.width, Img.height]

/-- C4: with `slack_profile` set, `layer_images` returns, for every pair of
inputs, the composite pasted onto a fully transparent `max(w, h)`-square
canvas at offsets `((size − w) / 2, (size − h) / 2)` (integer floor division)
and resized to exactly 512x512 with the Lanczos filter — so the output
dimensions are 512x512 regardless of the input dimensions. -/
theorem layer_images_square_512 (fg bg : Img) :
    layer_images fg bg true =
      some (Img.resized
        (Img.pasted
          (Img.blank (max (composite_of fg bg).width (composite_of fg bg).height)
            (max (composite_of fg bg).width (composite_of fg bg).height) ⟨0, 0, 0, 0⟩)
          (composite_of fg bg)
          ((max (composite_of fg bg).width (composite_of fg bg).height -
            (composite_of fg bg).width) / 2)
          ((max (composite_of fg bg).width (composite_of fg bg).height -
            (composite_of fg bg).height) / 2))
        512 512 ResampleFilter.lanczos)
    ∧ (layer_images fg bg true).map Img.width = some 512
    ∧ (layer_images fg bg true).map Img.height = some 512 := by
  have hmain : layer_images fg bg true =
      some (Img.resized
        (Img.pasted
          (Img.blank (max (composite_of fg bg).width (composite_of fg bg).height)
            (max (composite_of fg bg).width (composite_of fg bg).height) ⟨0, 0, 0, 0⟩)
          (composite_of fg bg)
          ((max (composite_of fg bg).width (composite_of fg bg).height -
            (composite_of fg bg).width) / 2)
          ((max (composite_of fg bg).width (composite_of fg bg).height -
            (composite_of fg bg).height) / 2))
        512 512 ResampleFilter.lanczos) := by
    simp only [layer_images]
    rw [alpha_composite_layer fg bg]
    simp [slack_size]
  exact ⟨hmain, by rw [hmain]; rfl, by rw [hmain]; rfl⟩

/-- C9: `layer_images` resizes the foreground to exactly the background's
dimensions with the Lanczos filter when its dimensions differ from the
background's, and leaves the background unresized at that step; when the
dimensions already match, neither image is resized; either way the result is
the per-pixel alpha-over composite of the (possibly resized) foreground on
top of the background. -/
theorem layer_images_resize_policy (fg bg : Img) :
    ((Img.convertedRGBA fg).size ≠ (Img.convertedRGBA bg).size →
      layer_images fg bg false =
        some (Img.composited (Img.convertedRGBA bg)
          (Img.resized (Img.convertedRGBA fg) (Img.convertedRGBA bg).width
            (Img.convertedRGBA bg).height ResampleFilter.lanczos)))
    ∧ ((Img.convertedRGBA fg).size = (Img.convertedRGBA bg).size →
      layer_images fg bg false =
        some (Img.composited (Img.convertedRGBA bg) (Img.convertedRGBA fg))) := by
  constructor
  · intro h
    simp only [layer_images]
    rw [alpha_composite_layer fg bg]
    simp [composite_of, h]
  · intro h
    simp only [layer_images]
    rw [alpha_composite_layer fg bg]
    simp [composite_of, h]

/-- C9 witness: a 10x20 foreground over a 30x40 background is resized to
30x40 with Lanczos and composited over the untouched background. -/
theorem layer_images_resize_policy_witness :
    layer_images (Img.loaded 10 20) (Img.loaded 30 40) false =
      some (Img.composited (Img.convertedRGBA (Img.loaded 30 40))
        (Img.resized (Img.convertedRGBA (Img.loaded 10 20)) 30 40 ResampleFilter.lanczos)) :=
  (layer_images_resize_policy (Img.loaded 10 20) (Img.loaded 30 40)).1 (by decide)

/-- C5: `get_random_image` on a nonexistent directory creates it (the
directory state afterwards exists and is empty) and fails with the
`FileNotFoundError` whose message says the directory was just created and is
empty; on an existing directory with no entry ending in `.png`
case-insensitively it fails with the no-PNG `FileNotFoundError` leaving the
directory state unchanged; otherwise every index below the match count
selects that match — an immediate entry of the directory ending in `.png`
case-insensitively — and returns its path under the directory. -/
theorem get_random_image_spec (folder : String) (entries : List String) (pick : Nat) :
    get_random_image folder none pick = (some [], Except.error (PickErr.createdEmpty folder))
    ∧ (entries.filter lower_endswith_png = [] →
        get_random_image folder (some entries) pick =
          (some entries, Except.error (PickErr.noPngFound folder)))
    ∧ (pick < (entries.filter lower_endswith_png).length →
        get_random_image folder (some entries) pick =
          (some entries, Except.ok (folder ++ "/" ++
            (entries.filter lower_endswith_png).getD pick ""))
        ∧ (entries.filter lower_endswith_png).getD pick "" ∈ entries
        ∧ lower_endswith_png ((entries.filter lower_endswith_png).getD pick "") = true) := by
  refine ⟨rfl, fun hemp => ?_, fun hlt => ?_⟩
  · simp [get_random_image, hemp]
  · have hne : entries.filter lower_endswith_png ≠ [] := by
      intro h
      rw [h] at hlt
      simp at hlt
    have hmem : (entries.filter lower_endswith_png).getD pick "" ∈
        entries.filter lower_endswith_png := getD_mem_of_lt _ _ hlt
    have hmem2 := List.mem_filter.mp hmem
    refine ⟨?_, hmem2.1, hmem2.2⟩
    simp [get_random_image, hne, Nat.mod_eq_of_lt hlt]

/-- C5 witness: a directory with entries `a.PNG`, `b.txt`, `c.png` has two
case-insensitive PNG matches; index 1 selects `c.png` and the call returns
its path under the directory. -/
theorem get_random_image_spec_witness :
    get_random_image "bg" (some ["a.PNG", "b.txt", "c.png"]) 1 =
      (some ["a.PNG", "b.txt", "c.png"], Except.ok "bg/c.png") := by
  have h := (get_random_image_spec "bg" ["a.PNG", "b.txt", "c.png"] 1).2.2 (by decide)
  rw [h.1]
  rfl

/-- C6: a first-ever save with exactly one profile — via either the
single-token path or a one-entry batch — sets the store's default alias to
that profile's alias, and a subsequent save adding a second, distinct profile
leaves the original default alias unchanged. -/
theorem save_sets_then_keeps_default (t1 t2 a b : String) (ha : a ≠ "") (hb : b ≠ "")
    (hab : b ≠ a) :
    (save_slack_tokens emptyConfig (.singleTok t1 (some a))).default = some a
    ∧ (save_slack_tokens (save_slack_tokens emptyConfig (.singleTok t1 (some a)))
        (.singleTok t2 (some b))).default = some a
    ∧ (save_slack_tokens emptyConfig (.multiTok [(a, t1)])).default = some a
    ∧ (save_slack_tokens (save_slack_tokens emptyConfig (.multiTok [(a, t1)]))
        (.multiTok [(b, t2)])).default = some a := by
  have h1 : save_slack_tokens emptyConfig (.singleTok t1 (some a)) = ⟨[(a, t1)], some a⟩ := by
    simp [save_slack_tokens, emptyConfig, dictInsert, ha]
  have h3 : save_slack_tokens emptyConfig (.multiTok [(a, t1)]) = ⟨[(a, t1)], some a⟩ := by
    simp [save_slack_tokens, emptyConfig, dictInsert]
  have hba : ¬(a = b) := fun he => hab he.symm
  refine ⟨by rw [h1], ?_, by rw [h3], ?_⟩
  · rw [h1]
    simp [save_slack_tokens, dictInsert, hb, hba]
  · rw [h3]
    simp [save_slack_tokens]

/-- C6 witness: saving profile `work` into an empty store elects it default
and adding `home` afterwards keeps `work` as the default, on both save
paths. -/
theorem save_sets_then_keeps_default_witness :
    (save_slack_tokens emptyConfig (.singleTok "x" (some "work"))).default = some "work"
    ∧ (save_slack_tokens (save_slack_tokens emptyConfig (.singleTok "x" (some "work")))
        (.singleTok "y" (some "home"))).default = some "work"
    ∧ (save_slack_tokens emptyConfig (.multiTok [("work", "x")])).default = some "work"
    ∧ (save_slack_tokens (save_slack_tokens emptyConfig (.multiTok [("work", "x")]))
        (.multiTok [("home", "y")])).default = some "work" :=
  save_sets_then_keeps_default "x" "y" "work" "home" (by decide) (by decide) (by decide)

/-- C7 counterexample: a single-token save that adds profile `c` to a store
holding two profiles and no default alias leaves the default alias unset —
the single-token path only elects a default when the resulting profiles dict
has exactly one entry, so not every save that adds profiles to a default-less
store sets the default. -/
theorem save_default_not_elected_counterexample :
    save_slack_tokens ⟨[("a", "t1"), ("b", "t2")], none⟩
        (TokensArg.singleTok "t3" (some "c")) =
      ⟨[("a", "t1"), ("b", "t2"), ("c", "t3")], none⟩ := by
  decide

/-- C7 amended: every batch (dict) save of one or more pairs into a store
with no default alias sets the default alias to the first-iterated alias of
the profiles dict at save time (the merged dict after the additions); the
single-token path elects the saved alias as default only when the resulting
profiles dict has exactly one entry — in particular whenever the store was
empty. -/
theorem save_default_elected_on_batch (config : Config) (pairs : List (String × String))
    (t a : String) :
    (config.default = none → pairs ≠ [] →
      (save_slack_tokens config (.multiTok pairs)).default =
        some ((pairs.foldl (fun acc p => dictInsert acc p.1 p.2) config.profiles).headD
          ("", "")).1)
    ∧ (config.profiles = [] → a ≠ "" →
      (save_slack_tokens config (.singleTok t (some a))).default = some a) := by
  constructor
  · intro hdef hne
    have hnil : pairs.foldl (fun acc p => dictInsert acc p.1 p.2) config.profiles ≠ [] := by
      cases pairs with
      | nil => exact absurd rfl hne
      | cons p rest =>
        rw [List.foldl_cons]
        exact foldl_dictInsert_ne_nil rest _ (dictInsert_ne_nil _ _ _)
    have hpos : 0 < (pairs.foldl (fun acc p => dictInsert acc p.1 p.2) config.profiles).length :=
      List.length_pos.mpr hnil
    simp [save_slack_tokens, hdef, hpos]
  · intro hprof ha
    simp [save_slack_tokens, hprof, dictInsert, ha]

/-- C7 amended witness: a batch save of `y` into a default-less store already
holding `x` elects `x`, the first-iterated alias of the merged dict. -/
theorem save_default_elected_on_batch_witness :
    (save_slack_tokens ⟨[("x", "t0")], none⟩ (TokensArg.multiTok [("y", "t9")])).default =
      some "x" := by
  have h := (save_default_elected_on_batch ⟨[("x", "t0")], none⟩ [("y", "t9")] "t" "a").1 rfl
    (by decide)
  rw [h]
  rfl

/-- C8: the failed-auth cleanup never modifies the store's `default` field —
neither `remove_invalid_token` nor any attempt outcome changes it — so
deleting the profile whose alias is the current default leaves the default
reference dangling (still set, pointing at an alias with no profile entry),
and loading tokens from the store afterwards still succeeds, yielding a
mapping with no entry for that alias. -/
theorem cleanup_never_touches_default (config : Config) (a : String) :
    (remove_invalid_token config a).default = config.default
    ∧ (∀ o : Outcome, (upload_attempt config a o).1.default = config.default)
    ∧ (config.default = some a → (dictLookup config.profiles a).isSome = true →
        (remove_invalid_token config a).default = some a
        ∧ dictLookup (remove_invalid_token config a).profiles a = none
        ∧ dictLookup (get_slack_tokens none (remove_invalid_token config a).profiles none)
            a = none) := by
  have hdef : (remove_invalid_token config a).default = config.default := by
    unfold remove_invalid_token
    split <;> rfl
  refine ⟨hdef, fun o => ?_, fun hda hsome => ?_⟩
  · cases o with
    | ok => rfl
    | respErr => rfl
    | exn => rfl
    | apiErr code c =>
      simp only [upload_attempt]
      split
      · cases c
        · rfl
        · exact hdef
      · rfl
  · have hl : dictLookup (remove_invalid_token config a).profiles a = none := by
      unfold remove_invalid_token
      rw [if_pos hsome]
      exact dictLookup_dictRemove_self _ _
    have hnm : a ∉ (remove_invalid_token config a).profiles.map Prod.fst :=
      not_mem_keys_of_dictLookup_none _ _ hl
    refine ⟨hdef.trans hda, hl, ?_⟩
    unfold get_slack_tokens
    rw [dictLookup_foldl_dictInsert_not_mem _ _ _ hnm]
    rfl

/-- C8 witness: deleting `work`, the current default, leaves `default` still
`work` while the profile entry is gone, and the store still resolves. -/
theorem cleanup_never_touches_default_witness :
    (remove_invalid_token ⟨[("work", "wt")], some "work"⟩ "work").default = some "work"
    ∧ dictLookup (remove_invalid_token ⟨[("work", "wt")], some "work"⟩ "work").profiles
        "work" = none
    ∧ dictLookup
        (get_slack_tokens none
          (remove_invalid_token ⟨[("work", "wt")], some "work"⟩ "work").profiles none)
        "work" = none :=
  (cleanup_never_touches_default ⟨[("work", "wt")], some "work"⟩ "work").2.2 rfl (by decide)

/-- C10: with the environment token set, `get_slack_tokens` puts it under the
`"default"` key even when a nonempty requested-alias filter excludes
`"default"`, and `upload_to_slack` restricted to those aliases consequently
still performs an attempt (records a result) for the `"default"` alias. -/
theorem env_default_survives_filter (t : String) (config : Config) (req : List String)
    (prompt_tokens : Option (List (String × String))) (outcome : String → Outcome)
    (hne : req ≠ []) (hnd : "default" ∉ req) :
    dictLookup (get_slack_tokens (some t) config.profiles (some req)) "default" = some t
    ∧ "default" ∈
        ((upload_to_slack (some t) config (some req) prompt_tokens outcome).2.map
          Prod.fst) := by
  have h1 : dictLookup (get_slack_tokens (some t) config.profiles (some req)) "default" =
      some t := by
    simp only [get_slack_tokens]
    rw [if_neg hne, dictLookup_foldl_optInsert_not_mem _ _ _ _ hnd]
    rfl
  have hres : get_slack_tokens (some t) config.profiles (some req) ≠ [] := by
    intro h
    rw [h] at h1
    simp [dictLookup] at h1
  have hmem : "default" ∈ (get_slack_tokens (some t) config.profiles (some req)).map
      Prod.fst := mem_keys_of_dictLookup_some _ _ _ h1
  refine ⟨h1, ?_⟩
  simp only [upload_to_slack]
  rw [if_neg hres, if_neg hres]
  simp only [upload_loop_snd, List.map_map]
  simpa using hmem

/-- C10 witness: with environment token `tok` and the upload restricted to
alias `work`, the resolved mapping still has `default` and the upload run
records a result for it. -/
theorem env_default_survives_filter_witness :
    dictLookup (get_slack_tokens (some "tok") [("work", "wt")] (some ["work"])) "default" =
      some "tok"
    ∧ "default" ∈
        ((upload_to_slack (some "tok") ⟨[("work", "wt")], none⟩ (some ["work"]) none
          (fun _ => Outcome.ok)).2.map Prod.fst) :=
  env_default_survives_filter "tok" ⟨[("work", "wt")], none⟩ ["work"] none
    (fun _ => Outcome.ok) (by decide) (by decide)

end DailySlackAvatar
